import Mathlib

set_option maxRecDepth 2048

/-!
Verification of the core symbolication engine of a crash-dump processor
(breakpad-style): the fast source-line resolver
(`fast_source_line_resolver.cc`), the address-list stack walker
(`stackwalker_address_list.cc`) and the processor driver contract, as a
shallow embedding in Lean 4.

Machine addresses (`MemAddr`, C++ `uint64_t`) are modelled as `Nat` with
explicit reduction modulo `2^64` wherever the C++ arithmetic can wrap.
-/

namespace Breakpad

/-- `2^64`, the modulus of the C++ `uint64_t` arithmetic. -/
def p64 : Nat := 2 ^ 64

/-- Wrapping 64-bit subtraction `a - b` as computed on C++ `uint64_t`
operands already reduced below `2^64`. -/
def sub64 (a b : Nat) : Nat := (a + p64 - b) % p64

/-- Wrapping 64-bit addition. -/
def add64 (a b : Nat) : Nat := (a + b) % p64

/-- The overflow-friendly range-containment test used by
`FastSourceLineResolver::Module::LookupAddress` (lines 90-92) and
`FindWindowsFrameInfo` (lines 309-311):
`address >= base && address - base < size` with wrapping subtraction. -/
def containsAddr (base size addr : Nat) : Bool :=
  decide (addr ≥ base) && decide (sub64 addr base < size)

/-- Frame trust levels, from the source's `StackFrame::FrameTrust` enum. -/
inductive FrameTrust where
  | frame_trust_none
  | frame_trust_scan
  | frame_trust_cfi_scan
  | frame_trust_fp
  | frame_trust_cfi
  | frame_trust_prewalked
  | frame_trust_context
  | frame_trust_inline
  deriving DecidableEq, Repr

/-- A stack frame, restricted to the fields the resolver and the walkers
under verification read or write.  `module_base` stands for the C++
`frame->module->base_address()`. -/
structure StackFrame where
  instruction : Nat := 0
  module_base : Nat := 0
  function_name : String := ""
  function_base : Nat := 0
  source_file_name : String := ""
  source_line : Nat := 0
  source_line_base : Nat := 0
  is_multiple : Bool := false
  trust : FrameTrust := .frame_trust_none
  deriving DecidableEq, Repr

/-- Modelled from the spec: `StaticMap<K,V>.find` — an exact-key lookup
over the serialized key/value table (the static-map sources are not part
of this extract; §4.1 of the spec describes them). -/
def staticMapFind {V : Type} (m : List (Nat × V)) (k : Nat) : Option V :=
  (m.find? (fun e => e.1 = k)).map (·.2)

/-- An entry of a range map: `(base, size, value)`. -/
abbrev RangeEntry (V : Type) := Nat × Nat × V

/-- Modelled from the spec: `StaticRangeMap.RetrieveNearestRange` returns
the greatest stored interval with `base ≤ addr`, whether or not it
contains `addr` (spec §4.1).  Entries are stored in ascending base
order. -/
def retrieveNearestRange {V : Type} (m : List (RangeEntry V)) (addr : Nat) :
    Option (V × Nat × Nat) :=
  m.foldl (fun acc e => if e.1 ≤ addr then some (e.2.2, e.1, e.2.1) else acc) none

/-- Modelled from the spec: `StaticRangeMap.RetrieveRange` — nearest
predecessor plus a containment check on disjoint intervals (spec §4.1). -/
def retrieveRange {V : Type} (m : List (RangeEntry V)) (addr : Nat) :
    Option (V × Nat × Nat) :=
  match retrieveNearestRange m addr with
  | some (v, b, s) => if addr - b < s then some (v, b, s) else none
  | none => none

/-- Modelled from the spec: `StaticAddressMap.Retrieve` returns the value
at the greatest stored point `≤ addr` together with that point
(spec §4.1).  Entries are stored in ascending point order. -/
def addressMapRetrieve {V : Type} (m : List (Nat × V)) (addr : Nat) :
    Option (V × Nat) :=
  m.foldl (fun acc e => if e.1 ≤ addr then some (e.2, e.1) else acc) none

end Breakpad

namespace Breakpad

/-- A source line record: `{ source_file_id, line }`, as read by
`LookupAddress` from a function's line map. -/
structure Line where
  source_file_id : Nat
  line : Nat
  deriving DecidableEq, Repr

/-- An inline record, as read by `ConstructInlineFrames`: call-site file
and line, origin id, and the inlined ranges `(base, size)`. -/
structure Inline where
  has_call_site_file_id : Bool
  call_site_file_id : Nat
  call_site_line : Nat
  origin_id : Nat
  inline_ranges : List (Nat × Nat)
  deriving DecidableEq, Repr

/-- A public symbol record. -/
structure PublicSymbol where
  name : String
  parameter_size : Nat
  is_multiple : Bool
  deriving DecidableEq, Repr

/-- A function record: name, parameter size, multiplicity flag, its line
range map and its inline records (the contained-range map flattened in
storage order, innermost entries first for a containing chain). -/
structure Function where
  name : String
  parameter_size : Nat
  is_multiple : Bool
  lines : List (RangeEntry Line)
  inlines : List Inline
  deriving DecidableEq, Repr

/-- A Windows frame-info record (`WindowsFrameInfo`), with the
`valid` bit `VALID_PARAMETER_SIZE` modelled as a Boolean field. -/
structure WindowsFrameInfo where
  prolog_size : Nat := 0
  epilog_size : Nat := 0
  parameter_size : Nat := 0
  saved_register_size : Nat := 0
  local_size : Nat := 0
  max_stack_size : Nat := 0
  allocates_base_pointer : Bool := false
  program_string : String := ""
  valid_parameter_size : Bool := false
  deriving DecidableEq, Repr

/-- A CFI rule set (`CFIFrameInfo`): a register-to-expression
association. -/
abbrev CFIRules := List (String × String)

/-- The resolver module: the address-indexed maps of
`FastSourceLineResolver::Module`.  The two relevant Windows frame-info
maps (`STACK_INFO_FRAME_DATA` and `STACK_INFO_FPO`) are kept as separate
fields. -/
structure Module where
  files_ : List (Nat × String)
  functions_ : List (RangeEntry Function)
  public_symbols_ : List (Nat × PublicSymbol)
  wfi_frame_data_ : List (RangeEntry WindowsFrameInfo)
  wfi_fpo_ : List (RangeEntry WindowsFrameInfo)
  cfi_initial_rules_ : List (RangeEntry String)
  cfi_delta_rules_ : List (Nat × String)
  inline_origins_ : List (Nat × String)
  deriving Repr

/-- Modelled from the spec: `StaticContainedRangeMap.RetrieveRanges`
returns every inline record one of whose ranges contains the address
(spec §4.1); the source of the contained-range map is not part of this
extract.  The storage order, innermost entries first, is preserved, as
documented in `ConstructInlineFrames` (source lines 169-170). -/
def retrieveRanges (address : Nat) (inline_map : List Inline) : List Inline :=
  inline_map.filter
    (fun inl => inl.inline_ranges.any
      (fun r => decide (r.1 ≤ address) && decide (address - r.1 < r.2)))

/-- One iteration of the loop of
`FastSourceLineResolver::Module::ConstructInlineFrames`
(source lines 135-172): build one inline frame as a copy of the
enclosing frame, resolve the origin name (`"<name omitted>"` when the
origin id is absent), record the call-site line and — when present and
resolvable — the call-site file, set the function base from the first
range containing the address (the module base alone if none does), and
mark the frame as `FRAME_TRUST_INLINE`. -/
def buildInlineFrame (frame : StackFrame) (address : Nat)
    (files origins : List (Nat × String)) (inl : Inline) : StackFrame :=
  { frame with
    function_name := (staticMapFind origins inl.origin_id).getD "<name omitted>",
    source_line := inl.call_site_line,
    source_file_name :=
      if inl.has_call_site_file_id then
        (staticMapFind files inl.call_site_file_id).getD frame.source_file_name
      else frame.source_file_name,
    function_base :=
      match inl.inline_ranges.find?
          (fun r => decide (address ≥ r.1) && decide (address < add64 r.1 r.2)) with
      | some r => add64 frame.module_base r.1
      | none => frame.module_base,
    trust := .frame_trust_inline }

/-- The file/line shift of `ConstructInlineFrames` (source lines
180-183): walk the inline frames innermost-first, swapping each frame's
`(source_file_name, source_line)` with the saved pair. -/
def shiftFileLines : String × Nat → List StackFrame → List StackFrame
  | _, [] => []
  | sv, f :: rest =>
      { f with source_file_name := sv.1, source_line := sv.2 } ::
        shiftFileLines (f.source_file_name, f.source_line) rest

/-- `FastSourceLineResolver::Module::ConstructInlineFrames`
(source lines 125-185).  Returns the updated enclosing frame together
with the list of inline frames, innermost first. -/
def ConstructInlineFrames (frame : StackFrame) (address : Nat)
    (inline_map : List Inline) (files origins : List (Nat × String)) :
    StackFrame × List StackFrame :=
  match retrieveRanges address inline_map with
  | [] => (frame, [])
  | p :: ps =>
      -- `built` is never empty here, so `getLastD` is the deque's `back()`
      let built := (p :: ps).map (buildInlineFrame frame address files origins)
      let outer := built.getLastD frame
      let frame1 := { frame with
        source_file_name := outer.source_file_name,
        source_line := outer.source_line }
      (frame1, shiftFileLines (frame.source_file_name, frame.source_line) built)

/-- `FastSourceLineResolver::Module::LookupAddress` (source lines
71-123).  `withInlines` models whether the caller passed a non-null
`inlined_frames` deque; the returned list holds the inline frames
appended to it. -/
def LookupAddress (m : Module) (frame : StackFrame) (withInlines : Bool) :
    StackFrame × List StackFrame :=
  let address := sub64 frame.instruction frame.module_base
  match retrieveNearestRange m.functions_ address with
  | some (func, function_base, function_size) =>
    if address ≥ function_base ∧ sub64 address function_base < function_size then
      let frame1 := { frame with
        function_name := func.name,
        function_base := add64 frame.module_base function_base,
        is_multiple := func.is_multiple }
      let frame2 :=
        match retrieveRange func.lines address with
        | some (line, line_base, _) =>
          -- the source updates source_file_name only when the file id is
          -- found in files_; otherwise the field keeps its prior value
          { frame1 with
            source_file_name :=
              (staticMapFind m.files_ line.source_file_id).getD frame1.source_file_name,
            source_line := line.line,
            source_line_base := add64 frame.module_base line_base }
        | none => frame1
      if withInlines then
        ConstructInlineFrames frame2 address func.inlines m.files_ m.inline_origins_
      else (frame2, [])
    else
      match addressMapRetrieve m.public_symbols_ address with
      | some (sym, public_address) =>
        if public_address > function_base then
          ({ frame with
              function_name := sym.name,
              function_base := add64 frame.module_base public_address,
              is_multiple := sym.is_multiple }, [])
        else (frame, [])
      | none => (frame, [])
  | none =>
    match addressMapRetrieve m.public_symbols_ address with
    | some (sym, public_address) =>
      ({ frame with
          function_name := sym.name,
          function_base := add64 frame.module_base public_address,
          is_multiple := sym.is_multiple }, [])
    | none => (frame, [])

/-- Modelled from the spec: `StaticContainedRangeMap.RetrieveRange`
returns the innermost stored entry containing the address (spec §4.1:
nested intervals); with outer entries stored before the inner ones this
is the last containing entry. -/
def containedRetrieveRange {V : Type} (m : List (RangeEntry V)) (addr : Nat) :
    Option V :=
  m.foldl
    (fun acc e => if e.1 ≤ addr ∧ addr - e.1 < e.2.1 then some e.2.2 else acc)
    none

/-- `FastSourceLineResolver::Module::FindWindowsFrameInfo` (source lines
279-330).  The two interesting branches after a miss in both Windows
frame-info maps: a containing function yields a result holding only its
`parameter_size` (with `VALID_PARAMETER_SIZE`), while the final public
symbol branch populates a local result but then falls through to
`return nullptr` (source line 329), so nothing is returned. -/
def FindWindowsFrameInfo (m : Module) (frame : StackFrame) :
    Option WindowsFrameInfo :=
  let address := sub64 frame.instruction frame.module_base
  match containedRetrieveRange m.wfi_frame_data_ address with
  | some wfi => some wfi
  | none =>
  match containedRetrieveRange m.wfi_fpo_ address with
  | some wfi => some wfi
  | none =>
  match retrieveNearestRange m.functions_ address with
  | some (func, function_base, function_size) =>
    if address ≥ function_base ∧ sub64 address function_base < function_size then
      some { parameter_size := func.parameter_size, valid_parameter_size := true }
    else
      match addressMapRetrieve m.public_symbols_ address with
      | some (_, public_address) =>
        -- the source copies the public symbol's parameter_size into the
        -- local result here, but the function still ends in
        -- `return nullptr`, discarding it
        if public_address > function_base then none else none
      | none => none
  | none =>
    match addressMapRetrieve m.public_symbols_ address with
    | some _ => none
    | none => none

/-- Insert or overwrite one register rule in a rule set. -/
def setRule (rs : CFIRules) (reg expr : String) : CFIRules :=
  if rs.any (fun p => p.1 = reg) then
    rs.map (fun p => if p.1 = reg then (reg, expr) else p)
  else rs ++ [(reg, expr)]

/-- Split a character list on spaces, dropping empty tokens; `cur` holds
the reversed characters of the token being accumulated. -/
def splitSpaces : List Char → List Char → List (List Char)
  | [], cur => if cur = [] then [] else [cur.reverse]
  | c :: rest, cur =>
    if c = ' ' then
      if cur = [] then splitSpaces rest []
      else cur.reverse :: splitSpaces rest []
    else splitSpaces rest (c :: cur)

/-- Join tokens with single spaces. -/
def joinSpaces : List (List Char) → List Char
  | [] => []
  | t :: rest =>
    match rest with
    | [] => t
    | _ :: _ => t ++ ' ' :: joinSpaces rest

/-- A token naming a rule's target register ends in a colon. -/
def tokenIsTarget (tok : List Char) : Bool := tok.getLast? = some ':'

/-- Modelled from the spec: the token loop of `ParseCFIRuleSet`
(spec §4.6; its source is not part of this extract).  A token ending in
a colon names the target register; the following tokens up to the next
target form the expression assigned to it.  A target with an empty
expression, or a token before any target, makes the parse fail; on
failure the rules accumulated so far are kept (the C++ mutates the
`CFIFrameInfo` in place). -/
def parseCFITokens (cur : Option (List Char)) (expr : List (List Char))
    (rs : CFIRules) : List (List Char) → Bool × CFIRules
  | [] =>
    match cur with
    | none => (true, rs)
    | some reg =>
      if expr.isEmpty then (false, rs)
      else (true, setRule rs (String.mk reg) (String.mk (joinSpaces expr)))
  | tok :: rest =>
    if tokenIsTarget tok then
      let reg := tok.dropLast
      match cur with
      | none => parseCFITokens (some reg) [] rs rest
      | some prev =>
        if expr.isEmpty then (false, rs)
        else parseCFITokens (some reg) []
          (setRule rs (String.mk prev) (String.mk (joinSpaces expr))) rest
    else
      match cur with
      | none => (false, rs)
      | some _ => parseCFITokens cur (expr ++ [tok]) rs rest

/-- Modelled from the spec: `ParseCFIRuleSet` (spec §4.6) parses a
whitespace-separated rule string into a register-to-expression set,
merging into `rs`; returns the success flag and the (possibly partially
updated) rules. -/
def ParseCFIRuleSet (s : String) (rs : CFIRules) : Bool × CFIRules :=
  parseCFITokens none [] rs (splitSpaces s.data [])

/-- `FastSourceLineResolver::Module::FindCFIFrameInfo` (source lines
332-364): retrieve the initial rule range; parse it into a fresh rule
set; then, starting from `lower_bound(initial_base)` in the delta map,
apply delta rules while the key is `≤ address`. -/
def FindCFIFrameInfo (m : Module) (frame : StackFrame) : Option CFIRules :=
  let address := sub64 frame.instruction frame.module_base
  match retrieveRange m.cfi_initial_rules_ address with
  | none => none
  | some (initial_rules, initial_base, _) =>
    let parsed := ParseCFIRuleSet initial_rules []
    if parsed.1 then
      let fromBase := m.cfi_delta_rules_.dropWhile (fun kv => kv.1 < initial_base)
      let toApply := fromBase.takeWhile (fun kv => kv.1 ≤ address)
      some (toApply.foldl (fun rs kv => (ParseCFIRuleSet kv.2 rs).2) parsed.2)
    else none

end Breakpad

namespace Breakpad

/-- Read one little-endian `uint64` from a byte buffer at `off`; bytes
past the end of the buffer read as zero. -/
def readU64 (buf : List Nat) (off : Nat) : Nat :=
  (List.range 8).foldr (fun i acc => acc * 256 + buf.getD (off + i) 0) 0

/-- `FastSourceLineResolver::Module::LoadMapFromMemory` (source lines
224-277), parametrized by the number of maps `k` (the C++ constant
`kNumberMaps_`, whose defining header is not part of this extract).
Reads the `is_corrupt` byte, then `k` `uint64` map sizes; computes
`expected_size = sizeof(bool) + offsets[k-1] + map_sizes[k-1] + 1` with
wrapping `size_t` arithmetic and accepts only buffers whose length is
`expected_size` or `expected_size + 1` (the C++ compares against
`memory_buffer_size - 1`, also wrapping).  On success it returns the
offsets at which the `k` sub-maps are constructed; on failure `none`
and no maps are installed. -/
def LoadMapFromMemory (buf : List Nat) (k : Nat) : Option (List Nat) :=
  let map_sizes := (List.range k).map (fun i => readU64 buf (1 + 8 * i))
  let header_size := 8 * k
  let offsets := (List.range k).map
    (fun i => (header_size + ((List.range i).map (fun j => map_sizes.getD j 0)).sum) % p64)
  let expected_size :=
    (1 + offsets.getD (k - 1) 0 + map_sizes.getD (k - 1) 0 + 1) % p64
  if expected_size ≠ buf.length ∧ expected_size ≠ sub64 buf.length 1 then
    none
  else
    some offsets

/-- Modelled from the spec: `kNumberMaps = 3 + STACK_INFO_LAST + 3`
(spec §4.3) — files, functions, public symbols, one Windows frame-info
map per stack-info type (`STACK_INFO_LAST = 5`), CFI initial rules, CFI
delta rules, inline origins. -/
def kNumberMaps : Nat := 3 + 5 + 3

/-- The sum of the `k` map sizes declared in the header of a serialized
module image. -/
def declaredSizesSum (buf : List Nat) (k : Nat) : Nat :=
  ((List.range k).map (fun i => readU64 buf (1 + 8 * i))).sum

end Breakpad

namespace Breakpad

/-- The state of `StackwalkerAddressList` (source lines 52-63): the
supplied frame addresses and the index of the next one to emit.  The
constructor passes null memory and null context to the `Stackwalker`
base, so the walker holds no stack memory and no register context. -/
structure StackwalkerAddressList where
  frames_ : List Nat
  next_frame_index_ : Nat
  deriving DecidableEq, Repr

/-- The walker as constructed: all addresses pending. -/
def StackwalkerAddressList.init (addrs : List Nat) : StackwalkerAddressList :=
  ⟨addrs, 0⟩

/-- A fresh `StackFrame` carrying one supplied address at
`FRAME_TRUST_PREWALKED`, as built by both walker entry points. -/
def prewalkedFrame (a : Nat) : StackFrame :=
  { instruction := a, trust := .frame_trust_prewalked }

/-- `StackwalkerAddressList::GetContextFrame` (source lines 65-76):
returns no frame when `frame_count_ == 0`; otherwise a prewalked frame
at `frames_[0]` and sets `next_frame_index_ = 1`. -/
def GetContextFrame (w : StackwalkerAddressList) :
    Option StackFrame × StackwalkerAddressList :=
  if w.frames_.length = 0 then (none, w)
  else (some (prewalkedFrame (w.frames_.getD 0 0)), { w with next_frame_index_ := 1 })

/-- `StackwalkerAddressList::GetCallerFrame` (source lines 78-90):
returns no frame once `next_frame_index_ >= frame_count_`; otherwise a
prewalked frame at the next supplied address. -/
def GetCallerFrame (w : StackwalkerAddressList) :
    Option StackFrame × StackwalkerAddressList :=
  if w.next_frame_index_ ≥ w.frames_.length then (none, w)
  else (some (prewalkedFrame (w.frames_.getD w.next_frame_index_ 0)),
        { w with next_frame_index_ := w.next_frame_index_ + 1 })

/-- Modelled from the spec: the walker driver loop (spec §4.7, the
`Stackwalker::Walk` source is not part of this extract) repeatedly asks
`GetCallerFrame` until it yields nothing.  Fuel-indexed; `walk` supplies
enough fuel to exhaust the list. -/
def callerFramesAux : Nat → StackwalkerAddressList → List StackFrame
  | 0, _ => []
  | fuel + 1, w =>
    match GetCallerFrame w with
    | (none, _) => []
    | (some f, w') => f :: callerFramesAux fuel w'

/-- Modelled from the spec: a full walk (spec §4.7): emit the context
frame, then the caller frames until exhaustion. -/
def walk (addrs : List Nat) : List StackFrame :=
  match GetContextFrame (StackwalkerAddressList.init addrs) with
  | (none, _) => []
  | (some f, w') => f :: callerFramesAux addrs.length w'

end Breakpad

namespace Breakpad

/-- Modelled from the spec: the closed status set of the processor
driver (spec §4.9). -/
inductive ProcessStatus where
  | ok
  | minidump_not_found
  | no_header
  | no_thread_list
  | no_memory_list
  | no_system_info
  | no_exception_or_assertion
  | symbol_supplier_interrupted
  deriving DecidableEq, Repr

/-- Modelled from the spec: the inputs of `MinidumpProcessor::Process`
that decide its status (spec §4.9 and §7; the processor source is not
part of this extract, only its unit tests are): whether the dump could
be read, whether the header and thread-list accessors return non-null,
and whether the symbol supplier signals interrupt during
symbolication. -/
structure DumpModel where
  readable : Bool
  has_header : Bool
  has_thread_list : Bool
  supplier_interrupts : Bool
  deriving DecidableEq, Repr

/-- Modelled from the spec: the status logic of
`MinidumpProcessor::Process` (spec §4.9, §7 and the behavior pinned by
`TestCorruptMinidumps` and `TestBasicProcessing`): an unreadable dump
gives `minidump_not_found`; a null header gives `no_header`; a null
thread list gives `no_thread_list`; a supplier interrupt during walking
gives `symbol_supplier_interrupted`; otherwise `ok`. -/
def Process (d : DumpModel) : ProcessStatus :=
  if ¬ d.readable then .minidump_not_found
  else if ¬ d.has_header then .no_header
  else if ¬ d.has_thread_list then .no_thread_list
  else if d.supplier_interrupts then .symbol_supplier_interrupted
  else .ok

/-- Modelled from the spec: the supplier-consultation discipline of one
`Process` call (spec §4.9: "the symbolizer must call the symbol
supplier at most once per `(dump, module)` pair").  Given the sequence
of modules encountered frame by frame during the walk, it returns the
sequence of modules for which `GetCStringSymbolData` is invoked: a
module already consulted in this run is skipped.  The consulted set
starts empty at each `Process` call (no cross-dump caching). -/
def supplierCallsAux (seen : List Nat) : List Nat → List Nat
  | [] => []
  | mdl :: rest =>
    if mdl ∈ seen then supplierCallsAux seen rest
    else mdl :: supplierCallsAux (mdl :: seen) rest

/-- Modelled from the spec: the supplier invocations of a single
`Process` call over the modules encountered during the walk. -/
def supplierCalls (mods : List Nat) : List Nat :=
  supplierCallsAux [] mods

end Breakpad

namespace Breakpad

/-- C6: for `addr, base, size < 2^64`, the overflow-friendly containment
test `addr ≥ base ∧ addr − base < size` (with wrapping subtraction)
accepts exactly the addresses of the mathematical interval
`[base, base+size)` computed without overflow. -/
theorem containsAddr_correct (addr base size : Nat)
    (ha : addr < 2 ^ 64) (hb : base < 2 ^ 64) (hs : size < 2 ^ 64) :
    containsAddr base size addr = true ↔ base ≤ addr ∧ addr < base + size := by
  unfold containsAddr sub64 p64
  simp only [Bool.and_eq_true, decide_eq_true_eq, ge_iff_le]
  omega

/-- Witness for C6 at a wrapping input: `base + size` overflows `2^64`
yet the test answers correctly. -/
theorem containsAddr_correct_witness :
    (2 ^ 64 - 2 : Nat) < 2 ^ 64 ∧ (2 ^ 64 - 4 : Nat) < 2 ^ 64 ∧ (8 : Nat) < 2 ^ 64 ∧
      (containsAddr (2 ^ 64 - 4) 8 (2 ^ 64 - 2) = true ↔
        2 ^ 64 - 4 ≤ 2 ^ 64 - 2 ∧ 2 ^ 64 - 2 < 2 ^ 64 - 4 + 8) :=
  ⟨by norm_num, by norm_num, by norm_num,
    containsAddr_correct (2 ^ 64 - 2) (2 ^ 64 - 4) 8
      (by norm_num) (by norm_num) (by norm_num)⟩

/-- Helper: the caller loop of the address-list walker, started at index
`i` with enough fuel, emits one prewalked frame per remaining
address. -/
theorem callerFramesAux_eq (addrs : List Nat) :
    ∀ (fuel i : Nat), addrs.length ≤ fuel + i →
      callerFramesAux fuel ⟨addrs, i⟩ = (addrs.drop i).map prewalkedFrame := by
  intro fuel
  induction fuel with
  | zero =>
    intro i h
    rw [callerFramesAux, List.drop_eq_nil_of_le (by omega), List.map_nil]
  | succ n ih =>
    intro i h
    by_cases hi : addrs.length ≤ i
    · rw [callerFramesAux]
      simp only [GetCallerFrame, ge_iff_le, hi, if_pos]
      rw [List.drop_eq_nil_of_le hi, List.map_nil]
    · push_neg at hi
      rw [callerFramesAux]
      simp only [GetCallerFrame, ge_iff_le, if_neg (by omega : ¬ addrs.length ≤ i)]
      rw [ih (i + 1) (by omega), List.drop_eq_getElem_cons hi, List.map_cons]
      rw [List.getD_eq_getElem addrs 0 hi]

/-- C9: for every non-empty supplied address list, the address-list
walker emits exactly one frame per supplied address, in order, each with
`instruction` equal to the corresponding address and trust
`FRAME_TRUST_PREWALKED`, and `GetCallerFrame` yields no frame once all
addresses are consumed.  The embedded `GetContextFrame`/`GetCallerFrame`
take no stack memory and no CFI input, mirroring the source walker. -/
theorem addressListWalk_spec (addrs : List Nat) (h : addrs ≠ []) :
    walk addrs = addrs.map prewalkedFrame ∧
    (GetCallerFrame ⟨addrs, addrs.length⟩).1 = none := by
  constructor
  · have hlen : ¬ addrs.length = 0 := fun hl => h (List.length_eq_zero.mp hl)
    have hctx : GetContextFrame (StackwalkerAddressList.init addrs) =
        (some (prewalkedFrame (addrs.getD 0 0)), ⟨addrs, 1⟩) := by
      simp [GetContextFrame, StackwalkerAddressList.init, hlen]
    rw [walk, hctx]
    show prewalkedFrame (addrs.getD 0 0) ::
        callerFramesAux addrs.length ⟨addrs, 1⟩ = List.map prewalkedFrame addrs
    rw [callerFramesAux_eq addrs addrs.length 1 (by omega)]
    cases addrs with
    | nil => exact absurd rfl h
    | cons a rest => simp [List.getD]
  · simp [GetCallerFrame]

/-- Witness for C9 on the concrete address list `[7, 3]`. -/
theorem addressListWalk_spec_witness :
    walk [7, 3] = [7, 3].map prewalkedFrame ∧
    (GetCallerFrame ⟨[7, 3], 2⟩).1 = none :=
  addressListWalk_spec [7, 3] (by decide)

/-- C10: with an empty supplied address list (`frame_count = 0`),
`GetContextFrame` returns no frame, so the walk produces zero frames. -/
theorem addressListWalk_empty :
    (GetContextFrame (StackwalkerAddressList.init [])).1 = none ∧
    walk [] = [] := by
  constructor
  · rfl
  · rfl

/-- Helper: the number of supplier invocations for module `m` during one
run is 1 when `m` occurs in the walk and was not already consulted, and
0 otherwise. -/
theorem supplierCallsAux_count (m : Nat) :
    ∀ (mods seen : List Nat),
      (supplierCallsAux seen mods).count m =
        if m ∈ mods ∧ m ∉ seen then 1 else 0 := by
  intro mods
  induction mods with
  | nil => intro seen; simp [supplierCallsAux]
  | cons a rest ih =>
    intro seen
    rw [supplierCallsAux]
    by_cases ha : a ∈ seen
    · rw [if_pos ha, ih seen]
      by_cases hm : m = a
      · subst hm
        simp [ha]
      · simp only [List.mem_cons]
        by_cases hmr : m ∈ rest <;> simp [hmr, hm]
    · rw [if_neg ha]
      by_cases hm : m = a
      · subst hm
        rw [List.count_cons_self, ih (m :: seen)]
        simp [ha]
      · rw [List.count_cons_of_ne hm, ih (a :: seen)]
        simp only [List.mem_cons, hm]
        by_cases hms : m ∈ seen <;> simp [hms, hm]

/-- C7: during one `Process` call the supplier is consulted at most once
per module, and two successive `Process` calls on the same dump consult
it exactly twice for a module the dump contains (no cross-dump
caching). -/
theorem supplier_once_per_module (mods : List Nat) (m : Nat) :
    (supplierCalls mods).count m ≤ 1 ∧
    (m ∈ mods →
      (supplierCalls mods).count m = 1 ∧
      ((supplierCalls mods ++ supplierCalls mods).count m = 2)) := by
  have hc : (supplierCalls mods).count m = if m ∈ mods then 1 else 0 := by
    rw [supplierCalls, supplierCallsAux_count]
    simp
  constructor
  · rw [hc]; split <;> omega
  · intro hm
    rw [List.count_append, hc, if_pos hm]
    exact ⟨rfl, rfl⟩

/-- Witness for C7 on the module sequence `[4, 9, 4]` (module 4 appears
on two frames of the walk, module 9 on one). -/
theorem supplier_once_per_module_witness :
    (supplierCalls [4, 9, 4]).count 4 ≤ 1 ∧
    (supplierCalls [4, 9, 4]).count 4 = 1 ∧
    (supplierCalls [4, 9, 4] ++ supplierCalls [4, 9, 4]).count 4 = 2 :=
  ⟨(supplier_once_per_module [4, 9, 4] 4).1,
   (supplier_once_per_module [4, 9, 4] 4).2 (by decide)⟩

/-- C8: `Process` returns `minidump_not_found` for an unreadable dump,
`no_header` for a null header, `no_thread_list` for a null thread list,
`symbol_supplier_interrupted` when the supplier interrupts, and its
result always lies in the closed status set. -/
theorem process_status_contract (d : DumpModel) :
    Process d ∈ [ProcessStatus.ok, ProcessStatus.minidump_not_found,
      ProcessStatus.no_header, ProcessStatus.no_thread_list,
      ProcessStatus.no_memory_list, ProcessStatus.no_system_info,
      ProcessStatus.no_exception_or_assertion,
      ProcessStatus.symbol_supplier_interrupted] ∧
    (d.readable = false → Process d = ProcessStatus.minidump_not_found) ∧
    (d.readable = true → d.has_header = false →
      Process d = ProcessStatus.no_header) ∧
    (d.readable = true → d.has_header = true → d.has_thread_list = false →
      Process d = ProcessStatus.no_thread_list) ∧
    (d.readable = true → d.has_header = true → d.has_thread_list = true →
      d.supplier_interrupts = true →
      Process d = ProcessStatus.symbol_supplier_interrupted) := by
  obtain ⟨r, hh, t, s⟩ := d
  cases r <;> cases hh <;> cases t <;> cases s <;> decide

/-- Witness for C8: each failure status at a concrete dump model. -/
theorem process_status_contract_witness :
    Process ⟨false, true, true, true⟩ = ProcessStatus.minidump_not_found ∧
    Process ⟨true, false, true, true⟩ = ProcessStatus.no_header ∧
    Process ⟨true, true, false, true⟩ = ProcessStatus.no_thread_list ∧
    Process ⟨true, true, true, true⟩ = ProcessStatus.symbol_supplier_interrupted :=
  ⟨(process_status_contract ⟨false, true, true, true⟩).2.1 rfl,
   (process_status_contract ⟨true, false, true, true⟩).2.2.1 rfl rfl,
   (process_status_contract ⟨true, true, false, true⟩).2.2.2.1 rfl rfl rfl,
   (process_status_contract ⟨true, true, true, true⟩).2.2.2.2 rfl rfl rfl rfl⟩

/-- Helper: reading the defaulted `j`-th element of `(range k).map f`. -/
theorem getD_range_map (f : Nat → Nat) {k j : Nat} (h : j < k) :
    ((List.range k).map f).getD j 0 = f j := by
  rw [List.getD_eq_getElem ((List.range k).map f) 0 (by simpa using h)]
  simp

/-- Helper: the value of `p64` as a numeral, for `omega`. -/
theorem p64_val : p64 = 18446744073709551616 := by norm_num [p64]

/-- Helper: the size check of `LoadMapFromMemory` accepts exactly the
buffers whose length matches
`(2 + 8k + Σ sizes) mod 2^64` directly or after the wrapping
`memory_buffer_size - 1`. -/
theorem loadMap_isSome_iff (buf : List Nat) (k : Nat) (hk : 1 ≤ k) :
    (LoadMapFromMemory buf k).isSome = true ↔
      ((2 + 8 * k + declaredSizesSum buf k) % p64 = buf.length ∨
       (2 + 8 * k + declaredSizesSum buf k) % p64 = sub64 buf.length 1) := by
  obtain ⟨k', rfl⟩ : ∃ k', k = k' + 1 := ⟨k - 1, by omega⟩
  simp only [LoadMapFromMemory]
  have hsub : k' + 1 - 1 = k' := rfl
  rw [hsub]
  rw [getD_range_map _ (Nat.lt_succ_self k'), getD_range_map _ (Nat.lt_succ_self k')]
  have h2 : (List.range k').map
      (fun j => ((List.range (k' + 1)).map
        (fun i => readU64 buf (1 + 8 * i))).getD j 0) =
      (List.range k').map (fun j => readU64 buf (1 + 8 * j)) := by
    apply List.map_congr_left
    intro j hj
    exact getD_range_map _ ((List.mem_range.mp hj).trans (Nat.lt_succ_self k'))
  rw [h2]
  have h3 : declaredSizesSum buf (k' + 1) =
      ((List.range k').map (fun j => readU64 buf (1 + 8 * j))).sum +
        readU64 buf (1 + 8 * k') := by
    unfold declaredSizesSum
    rw [List.range_succ, List.map_append, List.sum_append]
    simp
  rw [h3]
  generalize ((List.range k').map (fun j => readU64 buf (1 + 8 * j))).sum = A
  generalize readU64 buf (1 + 8 * k') = b
  have hE : (1 + (8 * (k' + 1) + A) % p64 + b + 1) % p64 =
      (2 + 8 * (k' + 1) + (A + b)) % p64 := by
    rw [p64_val]
    omega
  rw [hE]
  split
  · next hcond =>
    simp only [Option.isSome_none, Bool.false_eq_true, false_iff]
    push_neg
    exact hcond
  · next hcond =>
    simp only [Option.isSome_some, true_iff]
    by_cases h : (2 + 8 * (k' + 1) + (A + b)) % p64 = buf.length
    · exact Or.inl h
    · refine Or.inr ?_
      by_contra h2
      exact hcond ⟨h, h2⟩

/-- Helper: every `uint64` read from an all-zero buffer is zero. -/
theorem readU64_replicate_zero (n off : Nat) :
    readU64 (List.replicate n 0) off = 0 := by
  unfold readU64
  have h : ∀ i, (List.replicate n (0 : Nat)).getD (off + i) 0 = 0 := by
    intro i
    rcases Nat.lt_or_ge (off + i) n with hlt | hge
    · rw [List.getD_eq_getElem _ _ (by simpa using hlt)]
      simp
    · rw [List.getD_eq_default _ _ (by simpa using hge)]
  simp only [h]
  decide

/-- Helper: the declared map sizes of an all-zero buffer sum to zero. -/
theorem declaredSizesSum_replicate_zero (n k : Nat) :
    declaredSizesSum (List.replicate n 0) k = 0 := by
  unfold declaredSizesSum
  simp [readU64_replicate_zero]

/-- C2 counterexample: a buffer whose length is exactly
`1 + header + Σ sizes` (here `k = kNumberMaps = 11`, all declared sizes
zero, so length `89 = 1 + 88 + 0`) is rejected by `LoadMapFromMemory`,
although the claim as stated says it must be accepted. -/
theorem loadMapFromMemory_strict_length_counterexample :
    (List.replicate 89 0).length =
      1 + 8 * kNumberMaps + declaredSizesSum (List.replicate 89 0) kNumberMaps ∧
    LoadMapFromMemory (List.replicate 89 0) kNumberMaps = none := by
  constructor
  · rw [declaredSizesSum_replicate_zero]
    simp [kNumberMaps]
  · have h := loadMap_isSome_iff (List.replicate 89 0) kNumberMaps
      (by norm_num [kNumberMaps])
    rw [declaredSizesSum_replicate_zero] at h
    rw [← Option.not_isSome_iff_eq_none, Bool.not_eq_true,
      Bool.eq_false_iff, Ne, h]
    unfold sub64
    rw [p64_val]
    simp only [List.length_replicate, kNumberMaps]
    omega

/-- C2 (amended): for a buffer whose header is readable and whose
serialized size fits 64 bits, `LoadMapFromMemory` succeeds exactly when
the buffer length equals `1 + header + Σ sizes + 1` (the serializer's
mandatory trailing NUL) or that plus one more tolerated NUL byte; on
any other length it returns `none` and installs no maps. -/
theorem loadMapFromMemory_length_check (buf : List Nat) (k : Nat) (hk : 1 ≤ k)
    (hfit : 1 + 8 * k + declaredSizesSum buf k + 3 < 2 ^ 64)
    (hlen : buf.length < 2 ^ 64) :
    (LoadMapFromMemory buf k).isSome = true ↔
      (buf.length = 1 + 8 * k + declaredSizesSum buf k + 1 ∨
       buf.length = 1 + 8 * k + declaredSizesSum buf k + 2) := by
  rw [loadMap_isSome_iff buf k hk]
  unfold sub64
  rw [p64_val] at *
  omega

/-- Witness for C2's amended theorem: a 90-byte all-zero buffer
(`k = 11`, all sizes zero) is accepted, `90 = 1 + 88 + 0 + 1`. -/
theorem loadMapFromMemory_length_check_witness :
    (LoadMapFromMemory (List.replicate 90 0) kNumberMaps).isSome = true ↔
      ((List.replicate 90 0).length =
        1 + 8 * kNumberMaps + declaredSizesSum (List.replicate 90 0) kNumberMaps + 1 ∨
       (List.replicate 90 0).length =
        1 + 8 * kNumberMaps + declaredSizesSum (List.replicate 90 0) kNumberMaps + 2) :=
  loadMapFromMemory_length_check (List.replicate 90 0) kNumberMaps
    (by norm_num [kNumberMaps])
    (by rw [declaredSizesSum_replicate_zero]; norm_num [kNumberMaps])
    (by rw [List.length_replicate]; norm_num)

/-- C3: whenever both Windows frame-info maps miss and the retrieved
nearest function does not contain the address, `FindWindowsFrameInfo`
returns nothing — in particular in exactly the situation the claim
describes, where a public symbol is the tightest match and the source
populates a local result with its `parameter_size` before discarding it
with `return nullptr` (source line 329). -/
theorem findWindowsFrameInfo_public_branch_returns_none
    (m : Module) (frame : StackFrame) (sym : PublicSymbol) (public_address : Nat)
    (h1 : containedRetrieveRange m.wfi_frame_data_
      (sub64 frame.instruction frame.module_base) = none)
    (h2 : containedRetrieveRange m.wfi_fpo_
      (sub64 frame.instruction frame.module_base) = none)
    (h3 : ∀ f fb fs, retrieveNearestRange m.functions_
        (sub64 frame.instruction frame.module_base) = some (f, fb, fs) →
      ¬(sub64 frame.instruction frame.module_base ≥ fb ∧
        sub64 (sub64 frame.instruction frame.module_base) fb < fs))
    (h4 : addressMapRetrieve m.public_symbols_
      (sub64 frame.instruction frame.module_base) = some (sym, public_address))
    (h5 : retrieveNearestRange m.functions_
        (sub64 frame.instruction frame.module_base) = none ∨
      ∀ f fb fs, retrieveNearestRange m.functions_
          (sub64 frame.instruction frame.module_base) = some (f, fb, fs) →
        public_address > fb) :
    FindWindowsFrameInfo m frame = none := by
  simp only [FindWindowsFrameInfo]
  rw [h1, h2]
  cases hn : retrieveNearestRange m.functions_
      (sub64 frame.instruction frame.module_base) with
  | none => simp [h4]
  | some v =>
    obtain ⟨f, fb, fs⟩ := v
    have hnc := h3 f fb fs hn
    simp [h4, hnc]

/-- Witness for C3: a module with no Windows frame-info records, no
functions, and one public symbol at 0 covering address 16; the source
still returns nothing. -/
theorem findWindowsFrameInfo_public_branch_returns_none_witness :
    FindWindowsFrameInfo
      ⟨[], [], [(0, ⟨"pub", 4, false⟩)], [], [], [], [], []⟩
      { instruction := 16, module_base := 0 } = none :=
  findWindowsFrameInfo_public_branch_returns_none
    ⟨[], [], [(0, ⟨"pub", 4, false⟩)], [], [], [], [], []⟩
    { instruction := 16, module_base := 0 } ⟨"pub", 4, false⟩ 0
    rfl rfl
    (by intro f fb fs h; simp [retrieveNearestRange] at h)
    (by decide)
    (Or.inl (by decide))

/-- C1: `LookupAddress` resolves a frame as follows.  If the nearest
function range contains the module-relative address under the
overflow-friendly check, it populates `function_name`, `function_base`
and `is_multiple` from that function, and file/line from the function's
line map when a line range contains the address; otherwise a public
symbol at point `paddr` is accepted only if no function was retrieved or
`paddr` is strictly greater than the rejected function's base; if
neither matches, the frame is returned unchanged. -/
theorem lookupAddress_spec (m : Module) (frame : StackFrame) (A : Nat)
    (hA : A = sub64 frame.instruction frame.module_base) :
    (∀ func fb fs, retrieveNearestRange m.functions_ A = some (func, fb, fs) →
      A ≥ fb → sub64 A fb < fs →
      ((LookupAddress m frame false).1.function_name = func.name ∧
       (LookupAddress m frame false).1.function_base = add64 frame.module_base fb ∧
       (LookupAddress m frame false).1.is_multiple = func.is_multiple) ∧
      (∀ line lb sz, retrieveRange func.lines A = some (line, lb, sz) →
        (LookupAddress m frame false).1.source_line = line.line ∧
        (LookupAddress m frame false).1.source_line_base = add64 frame.module_base lb ∧
        ∀ path, staticMapFind m.files_ line.source_file_id = some path →
          (LookupAddress m frame false).1.source_file_name = path) ∧
      (retrieveRange func.lines A = none →
        (LookupAddress m frame false).1.source_file_name = frame.source_file_name ∧
        (LookupAddress m frame false).1.source_line = frame.source_line)) ∧
    (∀ sym pa, addressMapRetrieve m.public_symbols_ A = some (sym, pa) →
      (retrieveNearestRange m.functions_ A = none ∨
       (∃ func fb fs, retrieveNearestRange m.functions_ A = some (func, fb, fs) ∧
         ¬(A ≥ fb ∧ sub64 A fb < fs) ∧ pa > fb)) →
      ((LookupAddress m frame false).1.function_name = sym.name ∧
       (LookupAddress m frame false).1.function_base = add64 frame.module_base pa ∧
       (LookupAddress m frame false).1.is_multiple = sym.is_multiple)) ∧
    ((retrieveNearestRange m.functions_ A = none ∨
      (∃ func fb fs, retrieveNearestRange m.functions_ A = some (func, fb, fs) ∧
        ¬(A ≥ fb ∧ sub64 A fb < fs))) →
     (addressMapRetrieve m.public_symbols_ A = none ∨
      (∃ sym pa func fb fs, addressMapRetrieve m.public_symbols_ A = some (sym, pa) ∧
        retrieveNearestRange m.functions_ A = some (func, fb, fs) ∧ ¬pa > fb)) →
     (LookupAddress m frame false).1 = frame) := by
  subst hA
  refine ⟨?_, ?_, ?_⟩
  · intro func fb fs hn h1 h2
    simp only [LookupAddress, hn]
    rw [if_pos ⟨h1, h2⟩]
    simp only [Bool.false_eq_true, if_false]
    cases hl : retrieveRange func.lines (sub64 frame.instruction frame.module_base) with
    | none =>
      refine ⟨⟨rfl, rfl, rfl⟩, ?_, ?_⟩
      · intro line lb sz hline
        exact Option.noConfusion hline
      · intro _
        exact ⟨rfl, rfl⟩
    | some v =>
      obtain ⟨line, lb, sz⟩ := v
      refine ⟨⟨rfl, rfl, rfl⟩, ?_, ?_⟩
      · intro line' lb' sz' hline
        have hv : line = line' ∧ lb = lb' ∧ sz = sz' := by simpa using hline
        obtain ⟨rfl, rfl, rfl⟩ := hv
        refine ⟨rfl, rfl, ?_⟩
        intro path hpath
        show (staticMapFind m.files_ line.source_file_id).getD
          frame.source_file_name = path
        rw [hpath]
        rfl
      · intro hnone
        exact Option.noConfusion hnone
  · intro sym pa hp hcase
    rcases hcase with hno | ⟨func, fb, fs, hn, hnotc, hgt⟩
    · simp [LookupAddress, hno, hp]
    · simp only [LookupAddress, hn]
      rw [if_neg hnotc]
      simp only [hp]
      rw [if_pos hgt]
      exact ⟨rfl, rfl, rfl⟩
  · intro hfun hpub
    rcases hfun with hno | ⟨func, fb, fs, hn, hnotc⟩
    · rcases hpub with hpn | ⟨sym, pa, func, fb, fs, hp, hn, hng⟩
      · simp only [LookupAddress, hno, hpn]
      · rw [hno] at hn
        exact Option.noConfusion hn
    · rcases hpub with hpn | ⟨sym, pa, func', fb', fs', hp, hn', hng⟩
      · simp only [LookupAddress, hn]
        rw [if_neg hnotc]
        simp only [hpn]
      · rw [hn] at hn'
        have hv : func = func' ∧ fb = fb' ∧ fs = fs' := by simpa using hn'
        obtain ⟨rfl, rfl, rfl⟩ := hv
        simp only [LookupAddress, hn]
        rw [if_neg hnotc]
        simp only [hp]
        rw [if_neg hng]

/-- Witness for C1 on three concrete modules: a function-plus-line hit,
an accepted public symbol after a rejected function, and a rejected
public symbol leaving the frame unchanged. -/
theorem lookupAddress_spec_witness :
    ((LookupAddress
        ⟨[(1, "a.cc")], [(100, 50, ⟨"fn", 8, true, [(100, 10, ⟨1, 42⟩)], []⟩)],
         [], [], [], [], [], []⟩
        { instruction := 105, module_base := 0 } false).1.function_name = "fn" ∧
     (LookupAddress
        ⟨[(1, "a.cc")], [(100, 50, ⟨"fn", 8, true, [(100, 10, ⟨1, 42⟩)], []⟩)],
         [], [], [], [], [], []⟩
        { instruction := 105, module_base := 0 } false).1.source_line = 42 ∧
     (LookupAddress
        ⟨[(1, "a.cc")], [(100, 50, ⟨"fn", 8, true, [(100, 10, ⟨1, 42⟩)], []⟩)],
         [], [], [], [], [], []⟩
        { instruction := 105, module_base := 0 } false).1.source_file_name = "a.cc") ∧
    (LookupAddress
        ⟨[], [(200, 10, ⟨"g", 0, false, [], []⟩)], [(300, ⟨"pub", 4, false⟩)],
         [], [], [], [], []⟩
        { instruction := 305, module_base := 0 } false).1.function_name = "pub" ∧
    (LookupAddress
        ⟨[], [(200, 10, ⟨"g", 0, false, [], []⟩)], [(100, ⟨"pub", 4, false⟩)],
         [], [], [], [], []⟩
        { instruction := 305, module_base := 0 } false).1 =
      { instruction := 305, module_base := 0 } := by
  have hA := lookupAddress_spec
    ⟨[(1, "a.cc")], [(100, 50, ⟨"fn", 8, true, [(100, 10, ⟨1, 42⟩)], []⟩)],
     [], [], [], [], [], []⟩
    { instruction := 105, module_base := 0 } 105 (by decide)
  have hA1 := hA.1 ⟨"fn", 8, true, [(100, 10, ⟨1, 42⟩)], []⟩ 100 50
    (by decide) (by decide) (by decide)
  have hAline := hA1.2.1 ⟨1, 42⟩ 100 10 (by decide)
  have hB := lookupAddress_spec
    ⟨[], [(200, 10, ⟨"g", 0, false, [], []⟩)], [(300, ⟨"pub", 4, false⟩)],
     [], [], [], [], []⟩
    { instruction := 305, module_base := 0 } 305 (by decide)
  have hB1 := hB.2.1 ⟨"pub", 4, false⟩ 300 (by decide)
    (Or.inr ⟨⟨"g", 0, false, [], []⟩, 200, 10, by decide, by decide, by decide⟩)
  have hC := lookupAddress_spec
    ⟨[], [(200, 10, ⟨"g", 0, false, [], []⟩)], [(100, ⟨"pub", 4, false⟩)],
     [], [], [], [], []⟩
    { instruction := 305, module_base := 0 } 305 (by decide)
  have hC1 := hC.2.2
    (Or.inr ⟨⟨"g", 0, false, [], []⟩, 200, 10, by decide, by decide⟩)
    (Or.inr ⟨⟨"pub", 4, false⟩, 100, ⟨"g", 0, false, [], []⟩, 200, 10,
      by decide, by decide, by decide⟩)
  exact ⟨⟨hA1.1.1, hAline.1, hAline.2.2 "a.cc" (by decide)⟩, hB1.1, hC1⟩

/-- Helper: the file/line shift touches only `source_file_name` and
`source_line`, so the trusts are untouched. -/
theorem shiftFileLines_map_trust (sv : String × Nat) (l : List StackFrame) :
    (shiftFileLines sv l).map StackFrame.trust = l.map StackFrame.trust := by
  induction l generalizing sv with
  | nil => rfl
  | cons f rest ih =>
    rw [shiftFileLines, List.map_cons, List.map_cons, ih]

/-- Helper: the file/line shift keeps every frame's `function_name`. -/
theorem shiftFileLines_map_fname (sv : String × Nat) (l : List StackFrame) :
    (shiftFileLines sv l).map StackFrame.function_name =
      l.map StackFrame.function_name := by
  induction l generalizing sv with
  | nil => rfl
  | cons f rest ih =>
    rw [shiftFileLines, List.map_cons, List.map_cons, ih]

/-- Helper: the file/line shift preserves the number of frames. -/
theorem shiftFileLines_length (sv : String × Nat) (l : List StackFrame) :
    (shiftFileLines sv l).length = l.length := by
  induction l generalizing sv with
  | nil => rfl
  | cons f rest ih =>
    rw [shiftFileLines, List.length_cons, List.length_cons, ih]

/-- C4: for every address covered by a non-empty inline chain,
`ConstructInlineFrames` appends the inline frames innermost-first (one
per retrieved record, names in retrieval order), every appended frame
has trust `FRAME_TRUST_INLINE`, the enclosing frame's
`(source_file_name, source_line)` afterwards equals the call site of the
outermost (last-retrieved) inline, and the innermost (first) inline
frame carries the enclosing frame's original leaf `(file, line)`. -/
theorem constructInlineFrames_spec (frame : StackFrame) (address : Nat)
    (inline_map : List Inline) (files origins : List (Nat × String))
    (p : Inline) (ps : List Inline)
    (hret : retrieveRanges address inline_map = p :: ps) :
    ((ConstructInlineFrames frame address inline_map files origins).2.length =
      (p :: ps).length) ∧
    (∀ f ∈ (ConstructInlineFrames frame address inline_map files origins).2,
      f.trust = FrameTrust.frame_trust_inline) ∧
    ((ConstructInlineFrames frame address inline_map files origins).2.map
        StackFrame.function_name =
      (p :: ps).map (fun inl =>
        (staticMapFind origins inl.origin_id).getD "<name omitted>")) ∧
    (∀ lastInl, (p :: ps).getLast? = some lastInl →
      (ConstructInlineFrames frame address inline_map files origins).1.source_line =
        lastInl.call_site_line ∧
      (lastInl.has_call_site_file_id = true →
        ∀ path, staticMapFind files lastInl.call_site_file_id = some path →
          (ConstructInlineFrames frame address
            inline_map files origins).1.source_file_name = path)) ∧
    (∀ hf hrest,
      (ConstructInlineFrames frame address inline_map files origins).2 =
        hf :: hrest →
      hf.source_file_name = frame.source_file_name ∧
      hf.source_line = frame.source_line) := by
  simp only [ConstructInlineFrames, hret]
  refine ⟨?_, ?_, ?_, ?_, ?_⟩
  · rw [shiftFileLines_length, List.length_map]
  · intro f hf
    have hmem : f.trust ∈ (shiftFileLines (frame.source_file_name, frame.source_line)
        ((p :: ps).map (buildInlineFrame frame address files origins))).map
          StackFrame.trust :=
      List.mem_map_of_mem StackFrame.trust hf
    rw [shiftFileLines_map_trust, List.map_map] at hmem
    have hall : ∀ x ∈ (p :: ps).map
        (StackFrame.trust ∘ buildInlineFrame frame address files origins),
        x = FrameTrust.frame_trust_inline := by
      intro x hx
      obtain ⟨i, _, hxi⟩ := List.mem_map.mp hx
      rw [← hxi]
      rfl
    exact hall f.trust hmem
  · rw [shiftFileLines_map_fname, List.map_map]
    apply List.map_congr_left
    intro inl _
    rfl
  · intro lastInl hlast
    have hblast : ((p :: ps).map
        (buildInlineFrame frame address files origins)).getLast? =
        some (buildInlineFrame frame address files origins lastInl) := by
      rw [List.getLast?_map, hlast]
      rfl
    have houter : ((p :: ps).map
        (buildInlineFrame frame address files origins)).getLastD frame =
        buildInlineFrame frame address files origins lastInl := by
      rw [List.getLastD_eq_getLast?, hblast]
      rfl
    rw [houter]
    refine ⟨rfl, ?_⟩
    intro hhas path hpath
    show (buildInlineFrame frame address files origins lastInl).source_file_name = path
    simp [buildInlineFrame, hhas, hpath]
  · intro hf hrest heq
    rw [List.map_cons, shiftFileLines] at heq
    have hhf : hf = { buildInlineFrame frame address files origins p with
        source_file_name := frame.source_file_name,
        source_line := frame.source_line } := by
      exact (List.cons.injEq .. ▸ heq).1.symm
    rw [hhf]
    exact ⟨rfl, rfl⟩

/-- Witness for C4: a two-deep inline chain at address 5; the innermost
frame keeps the leaf `("leaf.cc", 10)`, the enclosing frame moves to the
outermost call site `("outer.cc", 30)`, and both inline frames are
`FRAME_TRUST_INLINE`. -/
theorem constructInlineFrames_spec_witness :
    ((ConstructInlineFrames
        { source_file_name := "leaf.cc", source_line := 10 } 5
        [⟨true, 2, 20, 1, [(4, 4)]⟩, ⟨true, 3, 30, 2, [(0, 16)]⟩]
        [(2, "mid.cc"), (3, "outer.cc")] [(1, "inner_fn"), (2, "outer_fn")]).2.length = 2) ∧
    ((ConstructInlineFrames
        { source_file_name := "leaf.cc", source_line := 10 } 5
        [⟨true, 2, 20, 1, [(4, 4)]⟩, ⟨true, 3, 30, 2, [(0, 16)]⟩]
        [(2, "mid.cc"), (3, "outer.cc")] [(1, "inner_fn"), (2, "outer_fn")]).2.map
        StackFrame.function_name = ["inner_fn", "outer_fn"]) ∧
    ((ConstructInlineFrames
        { source_file_name := "leaf.cc", source_line := 10 } 5
        [⟨true, 2, 20, 1, [(4, 4)]⟩, ⟨true, 3, 30, 2, [(0, 16)]⟩]
        [(2, "mid.cc"), (3, "outer.cc")] [(1, "inner_fn"), (2, "outer_fn")]).1.source_line = 30) ∧
    ((ConstructInlineFrames
        { source_file_name := "leaf.cc", source_line := 10 } 5
        [⟨true, 2, 20, 1, [(4, 4)]⟩, ⟨true, 3, 30, 2, [(0, 16)]⟩]
        [(2, "mid.cc"), (3, "outer.cc")] [(1, "inner_fn"), (2, "outer_fn")]).1.source_file_name = "outer.cc") := by
  have h := constructInlineFrames_spec
    { source_file_name := "leaf.cc", source_line := 10 } 5
    [⟨true, 2, 20, 1, [(4, 4)]⟩, ⟨true, 3, 30, 2, [(0, 16)]⟩]
    [(2, "mid.cc"), (3, "outer.cc")] [(1, "inner_fn"), (2, "outer_fn")]
    ⟨true, 2, 20, 1, [(4, 4)]⟩ [⟨true, 3, 30, 2, [(0, 16)]⟩] (by decide)
  have hlast := h.2.2.2.1 ⟨true, 3, 30, 2, [(0, 16)]⟩ (by decide)
  refine ⟨h.1, ?_, hlast.1, hlast.2 rfl "outer.cc" (by decide)⟩
  rw [h.2.2.1]
  decide

/-- Helper: on a list with strictly increasing keys, dropping the prefix
of keys below `b` is filtering for keys at least `b`. -/
theorem dropWhile_lt_eq_filter (b : Nat) :
    ∀ (l : List (Nat × String)), l.Pairwise (fun x y => x.1 < y.1) →
      l.dropWhile (fun kv => kv.1 < b) = l.filter (fun kv => b ≤ kv.1) := by
  intro l
  induction l with
  | nil => intro _; rfl
  | cons x xs ih =>
    intro hp
    have hxs := (List.pairwise_cons.mp hp).2
    have hlater := (List.pairwise_cons.mp hp).1
    by_cases hx : x.1 < b
    · rw [List.dropWhile_cons_of_pos (by simpa using hx),
        List.filter_cons_of_neg (by simpa using hx), ih hxs]
    · rw [List.dropWhile_cons_of_neg (by simpa using hx),
        List.filter_cons_of_pos (by simpa using Nat.le_of_not_lt hx)]
      congr 1
      symm
      rw [List.filter_eq_self]
      intro y hy
      have : x.1 < y.1 := hlater y hy
      simp
      omega

/-- Helper: on a list with strictly increasing keys, taking the prefix
of keys at most `a` is filtering for keys at most `a`. -/
theorem takeWhile_le_eq_filter (a : Nat) :
    ∀ (l : List (Nat × String)), l.Pairwise (fun x y => x.1 < y.1) →
      l.takeWhile (fun kv => kv.1 ≤ a) = l.filter (fun kv => kv.1 ≤ a) := by
  intro l
  induction l with
  | nil => intro _; rfl
  | cons x xs ih =>
    intro hp
    have hxs := (List.pairwise_cons.mp hp).2
    have hlater := (List.pairwise_cons.mp hp).1
    by_cases hx : x.1 ≤ a
    · rw [List.takeWhile_cons_of_pos (by simpa using hx),
        List.filter_cons_of_pos (by simpa using hx), ih hxs]
    · rw [List.takeWhile_cons_of_neg (by simpa using hx),
        List.filter_cons_of_neg (by simpa using hx)]
      symm
      rw [List.filter_eq_nil_iff]
      intro y hy
      have : x.1 < y.1 := hlater y hy
      simp
      omega

/-- C5: `FindCFIFrameInfo` fails when no `cfi_initial_rules` range covers
the module-relative address; otherwise (when the initial rule set
parses) it merges exactly the delta rules whose keys lie between the
initial range's base and the address inclusive, in key order, ignoring
deltas beyond the address even when still inside the initial range. -/
theorem findCFIFrameInfo_spec (m : Module) (frame : StackFrame)
    (hs : m.cfi_delta_rules_.Pairwise (fun x y => x.1 < y.1)) :
    (retrieveRange m.cfi_initial_rules_
        (sub64 frame.instruction frame.module_base) = none →
      FindCFIFrameInfo m frame = none) ∧
    (∀ r ibase isz, retrieveRange m.cfi_initial_rules_
        (sub64 frame.instruction frame.module_base) = some (r, ibase, isz) →
      (ParseCFIRuleSet r []).1 = true →
      FindCFIFrameInfo m frame =
        some ((m.cfi_delta_rules_.filter
            (fun kv => ibase ≤ kv.1 ∧
              kv.1 ≤ sub64 frame.instruction frame.module_base)).foldl
          (fun rs kv => (ParseCFIRuleSet kv.2 rs).2) (ParseCFIRuleSet r []).2)) := by
  constructor
  · intro hnone
    simp only [FindCFIFrameInfo, hnone]
  · intro r ibase isz hsome hparse
    simp only [FindCFIFrameInfo, hsome, hparse, if_pos]
    congr 1
    rw [dropWhile_lt_eq_filter ibase m.cfi_delta_rules_ hs,
      takeWhile_le_eq_filter (sub64 frame.instruction frame.module_base)
        (m.cfi_delta_rules_.filter (fun kv => ibase ≤ kv.1))
        (List.Pairwise.filter _ hs),
      List.filter_filter]
    congr 1
    refine List.filter_congr ?_
    intro kv _
    rw [Bool.decide_and, Bool.and_comm]

/-- Witness for C5: initial range `[0, 8)` with rules for `.cfa` and
`.ra`, three delta rules at 1, 3 and 5, queried at address 3 — exactly
the deltas at 1 and 3 are merged. -/
theorem findCFIFrameInfo_spec_witness :
    FindCFIFrameInfo
      ⟨[], [], [], [], [], [(0, 8, ".cfa: sp 8 + .ra: x")],
       [(1, "r0: 1"), (3, "r0: 2 x +"), (5, "r1: 9")], []⟩
      { instruction := 3, module_base := 0 } =
    some (((⟨[], [], [], [], [], [(0, 8, ".cfa: sp 8 + .ra: x")],
       [(1, "r0: 1"), (3, "r0: 2 x +"), (5, "r1: 9")], []⟩ : Module).cfi_delta_rules_.filter
        (fun kv => 0 ≤ kv.1 ∧ kv.1 ≤ sub64 3 0)).foldl
      (fun rs kv => (ParseCFIRuleSet kv.2 rs).2)
      (ParseCFIRuleSet ".cfa: sp 8 + .ra: x" []).2) :=
  (findCFIFrameInfo_spec
    ⟨[], [], [], [], [], [(0, 8, ".cfa: sp 8 + .ra: x")],
     [(1, "r0: 1"), (3, "r0: 2 x +"), (5, "r1: 9")], []⟩
    { instruction := 3, module_base := 0 }
    (by decide)).2 ".cfa: sp 8 + .ra: x" 0 8 (by decide) (by decide)

end Breakpad
